import Mathlib

/-!
Verification of the Connect4_RL frontend game hook (`useConnect4`) and the
exploration schedule of its training engine.

The UI code is shallowly embedded: JavaScript arrays become `List`s, the
three-valued cells `null | "player" | "ai"` become `Option Piece`, and the
asynchronous `makeMove` / `initGame` callbacks become pure state-transition
functions parameterised by the outcome of the HTTP request (success payload
or error).  JavaScript indexing `board[r][c]` on the fixed 6×7 board is
modelled with `List.getD` (out-of-range reads yield the non-cell default,
matching `undefined` never being strictly equal to a cell value).
-/

/-- The two piece kinds of the UI board: the string values `"player"` and
`"ai"` of the TypeScript `Cell` type. -/
inductive Piece where
  | player
  | ai
deriving DecidableEq, Repr

/-- `Cell = null | "player" | "ai"`: `none` models `null`. -/
abbrev Cell := Option Piece

/-- `Board = Cell[][]`. -/
abbrev Board := List (List Cell)

/-- UI game status, the TypeScript `GameStatus` union. -/
inductive GameStatus where
  | playing
  | won
  | lost
  | draw
  | connecting
  | error
deriving DecidableEq, Repr

/-- `const ROWS = 6`. -/
def ROWS : Nat := 6

/-- `const COLS = 7`. -/
def COLS : Nat := 7

/-- `createEmptyBoard`: a 6×7 grid of `null` cells. -/
def createEmptyBoard : Board :=
  List.replicate ROWS (List.replicate COLS (none : Cell))

/-- The cell conversion inside `convertBoard`: API value `0` becomes `null`,
the human player's number becomes `"player"`, anything else `"ai"`. -/
def convertCell (humanPlayer : Nat) (cell : Nat) : Cell :=
  if cell = 0 then none
  else if cell = humanPlayer then some Piece.player
  else some Piece.ai

/-- `convertBoard(apiBoard, humanPlayer)`: pointwise conversion of the API
board (numbers) to the UI board (cells). -/
def convertBoard (apiBoard : List (List Nat)) (humanPlayer : Nat) : Board :=
  apiBoard.map fun row => row.map (convertCell humanPlayer)

/-- `board[row][col]` for the in-grid reads performed by `findWinningCells`:
out-of-range access yields `none`, which compares unequal to any winner piece
exactly as JavaScript `undefined === winner` is false for a string winner. -/
def cellAt (b : Board) (r c : Nat) : Cell :=
  (b.getD r []).getD c none

/-- The horizontal windows scanned by `findWinningCells`, in scan order:
`row` over `0..ROWS-1`, `col` over `0..COLS-4`. -/
def horizWindows : List (List (Nat × Nat)) :=
  (List.range ROWS).flatMap fun row =>
    (List.range (COLS - 3)).map fun col =>
      [(row, col), (row, col + 1), (row, col + 2), (row, col + 3)]

/-- The vertical windows scanned by `findWinningCells`. -/
def vertWindows : List (List (Nat × Nat)) :=
  (List.range (ROWS - 3)).flatMap fun row =>
    (List.range COLS).map fun col =>
      [(row, col), (row + 1, col), (row + 2, col), (row + 3, col)]

/-- The down-right diagonal windows scanned by `findWinningCells`. -/
def diagDownWindows : List (List (Nat × Nat)) :=
  (List.range (ROWS - 3)).flatMap fun row =>
    (List.range (COLS - 3)).map fun col =>
      [(row, col), (row + 1, col + 1), (row + 2, col + 2), (row + 3, col + 3)]

/-- The up-right diagonal windows scanned by `findWinningCells`: the source
iterates `row` from `3` to `ROWS-1` and takes `(row, col), (row-1, col+1),
(row-2, col+2), (row-3, col+3)`; here `row = i + 3` with `i` over
`0..ROWS-4`, so the four cells are `(i+3, col), (i+2, col+1), (i+1, col+2),
(i, col+3)`. -/
def diagUpWindows : List (List (Nat × Nat)) :=
  (List.range (ROWS - 3)).flatMap fun i =>
    (List.range (COLS - 3)).map fun col =>
      [(i + 3, col), (i + 2, col + 1), (i + 1, col + 2), (i, col + 3)]

/-- All windows checked by `findWinningCells`, in the order the source
checks them: horizontal, vertical, down-right diagonal, up-right diagonal. -/
def allWindows : List (List (Nat × Nat)) :=
  horizWindows ++ vertWindows ++ diagDownWindows ++ diagUpWindows

/-- One window's check: all four of its cells hold the winner's piece. -/
def windowHit (b : Board) (w : Piece) (cells : List (Nat × Nat)) : Bool :=
  cells.all fun rc => decide (cellAt b rc.1 rc.2 = some w)

/-- `findWinningCells(board, winner)`: returns `[]` for a `null` winner,
otherwise the first window (in scan order) whose four cells all equal the
winner, or `[]` when no window matches. -/
def findWinningCells (b : Board) (winner : Cell) : List (Nat × Nat) :=
  match winner with
  | none => []
  | some w => (allWindows.find? (windowHit b w)).getD []

/-- Spec-side predicate: the board contains four consecutive cells equal to
`p` in a horizontal, vertical, or diagonal (either direction) line within
the 6×7 grid.  Stated from the spec's words, to be compared with
`findWinningCells`. -/
def fourInARow (b : Board) (p : Piece) : Prop :=
  (∃ r c, r < ROWS ∧ c + 3 < COLS ∧
    cellAt b r c = some p ∧ cellAt b r (c + 1) = some p ∧
    cellAt b r (c + 2) = some p ∧ cellAt b r (c + 3) = some p) ∨
  (∃ r c, r + 3 < ROWS ∧ c < COLS ∧
    cellAt b r c = some p ∧ cellAt b (r + 1) c = some p ∧
    cellAt b (r + 2) c = some p ∧ cellAt b (r + 3) c = some p) ∨
  (∃ r c, r + 3 < ROWS ∧ c + 3 < COLS ∧
    cellAt b r c = some p ∧ cellAt b (r + 1) (c + 1) = some p ∧
    cellAt b (r + 2) (c + 2) = some p ∧ cellAt b (r + 3) (c + 3) = some p) ∨
  (∃ r c, r + 3 < ROWS ∧ c + 3 < COLS ∧
    cellAt b (r + 3) c = some p ∧ cellAt b (r + 2) (c + 1) = some p ∧
    cellAt b (r + 1) (c + 2) = some p ∧ cellAt b r (c + 3) = some p)

/-- The FastAPI `GameStateResponse` payload. -/
structure GameStateResponse where
  session_id : String
  board : List (List Nat)
  ai_player : Nat
  human_player : Nat
  current_player : Nat
  game_over : Bool
  winner : Option Nat
deriving DecidableEq, Repr

/-- The state held by the `useConnect4` hook: the seven `useState` pieces
plus the `sessionRef` fields. -/
structure HookState where
  board : Board
  currentTurn : Piece
  status : GameStatus
  winningCells : List (Nat × Nat)
  isThinking : Bool
  errorMessage : Option String
  aiFirst : Bool
  sessionId : Option String
  humanPlayer : Nat
  aiPlayer : Nat
deriving DecidableEq, Repr

/-- Outcome of the `/game/move` fetch: either the catch branch is reached
(non-ok response or network error, with the derived message) or a payload is
returned. -/
inductive MoveOutcome where
  | httpError (msg : String)
  | ok (resp : GameStateResponse)
deriving DecidableEq, Repr

/-- The body of `makeMove` after a successful response (source lines
219–242): set the converted board, then branch on `game_over`/`winner`, and
finally clear `isThinking`. -/
def processMoveResponse (s : HookState) (data : GameStateResponse) : HookState :=
  let uiBoard := convertBoard data.board data.human_player
  let s1 := { s with board := uiBoard }
  let s2 :=
    if data.game_over then
      if data.winner = some 3 then
        { s1 with status := GameStatus.draw }
      else if data.winner = some data.human_player then
        { s1 with status := GameStatus.won,
                  winningCells := findWinningCells uiBoard (some Piece.player) }
      else
        { s1 with status := GameStatus.lost,
                  winningCells := findWinningCells uiBoard (some Piece.ai) }
    else
      { s1 with currentTurn :=
          if data.current_player = data.human_player then Piece.player
          else Piece.ai }
  { s2 with isThinking := false }

/-- `makeMove(col)` as a pure transition on the hook state, parameterised by
the fetch outcome; the returned `Bool` records whether a move request was
issued.  Guard order follows the source: status/turn/thinking check, then
session check, then the top-cell check `board[0][col] !== null` (an
out-of-range read gives `undefined`, which is `!== null`, hence the strict
`.get? col = some none` test). -/
def makeMove (s : HookState) (col : Nat) (outcome : MoveOutcome) :
    HookState × Bool :=
  if s.status ≠ GameStatus.playing ∨ s.currentTurn ≠ Piece.player ∨ s.isThinking then
    (s, false)
  else if s.sessionId = none then
    (s, false)
  else if (s.board.getD 0 []).get? col ≠ some (none : Cell) then
    (s, false)
  else
    match outcome with
    | MoveOutcome.httpError msg =>
      ({ s with errorMessage := some msg, isThinking := false }, true)
    | MoveOutcome.ok data =>
      (processMoveResponse s data, true)

/-- The `disabled` prop of column `col`'s `DropButton` in `GameBoard`:
`disabled || board[0][col] !== null`. -/
def dropButtonDisabled (disabled : Bool) (board : Board) (col : Nat) : Bool :=
  disabled || decide ((board.getD 0 []).get? col ≠ some (none : Cell))

/-- Outcome of the `/game/init` fetch. -/
inductive InitOutcome where
  | httpError (msg : String)
  | ok (resp : GameStateResponse)
deriving DecidableEq, Repr

/-- The synchronous state updates `initGame` performs before issuing the
init request. -/
def initGamePre (s : HookState) : HookState :=
  { s with status := GameStatus.connecting, isThinking := true,
           errorMessage := none, board := createEmptyBoard,
           winningCells := [], aiFirst := false }

/-- `initGame` as a pure transition parameterised by the fetch outcome. -/
def initGame (s : HookState) (outcome : InitOutcome) : HookState :=
  let s0 := initGamePre s
  match outcome with
  | InitOutcome.httpError msg =>
    { s0 with status := GameStatus.error, errorMessage := some msg,
              isThinking := false }
  | InitOutcome.ok data =>
    { s0 with
      sessionId := some data.session_id,
      humanPlayer := data.human_player,
      aiPlayer := data.ai_player,
      board := convertBoard data.board data.human_player,
      aiFirst := data.board.any fun row => row.any fun cell => cell != 0,
      currentTurn :=
        if data.current_player = data.human_player then Piece.player
        else Piece.ai,
      status := GameStatus.playing,
      isThinking := false }

/-- `resetGame` just invokes `initGame`. -/
def resetGame (s : HookState) (outcome : InitOutcome) : HookState :=
  initGame s outcome

/-- A 6×7 UI board: 6 rows, each of 7 cells. -/
def boardShape (b : Board) : Prop :=
  b.length = ROWS ∧ ∀ row ∈ b, row.length = COLS

instance (b : Board) : Decidable (boardShape b) := by
  unfold boardShape
  infer_instance

/-- A sample 6×7 board holding a horizontal four-in-a-row for the player. -/
def winBoard : Board :=
  [[some Piece.player, some Piece.player, some Piece.player, some Piece.player,
    none, none, none],
   [none, none, none, none, none, none, none],
   [none, none, none, none, none, none, none],
   [none, none, none, none, none, none, none],
   [none, none, none, none, none, none, none],
   [none, none, none, none, none, none, none]]

/-- A sample session id. -/
def sid : String := "s"

/-- A sample error message. -/
def errMsg : String := "err"

/-- A sample hook state in which the human may move: status `playing`,
player's turn, no request in flight, a session, an empty board. -/
def readyState : HookState :=
  { board := createEmptyBoard
    currentTurn := Piece.player
    status := GameStatus.playing
    winningCells := []
    isThinking := false
    errorMessage := none
    aiFirst := false
    sessionId := some sid
    humanPlayer := 1
    aiPlayer := 2 }

/-- A sample hook state whose game is already over (human won). -/
def wonState : HookState :=
  { readyState with status := GameStatus.won, board := winBoard }

/-- A sample hook state whose top-left cell is occupied. -/
def occupiedState : HookState :=
  { readyState with
      board := convertBoard
        [[1, 0, 0, 0, 0, 0, 0],
         [0, 0, 0, 0, 0, 0, 0],
         [0, 0, 0, 0, 0, 0, 0],
         [0, 0, 0, 0, 0, 0, 0],
         [0, 0, 0, 0, 0, 0, 0],
         [0, 0, 0, 0, 0, 0, 0]] 1 }

/-- A sample move response for a game that continues: the human's piece has
landed at the bottom of column 0 and it is the AI's turn. -/
def ongoingResp : GameStateResponse :=
  { session_id := "s"
    board := [[0, 0, 0, 0, 0, 0, 0],
              [0, 0, 0, 0, 0, 0, 0],
              [0, 0, 0, 0, 0, 0, 0],
              [0, 0, 0, 0, 0, 0, 0],
              [0, 0, 0, 0, 0, 0, 0],
              [1, 0, 0, 0, 0, 0, 0]]
    ai_player := 2
    human_player := 1
    current_player := 2
    game_over := false
    winner := none }

/-- A sample move response in which the human has won. -/
def wonResp : GameStateResponse :=
  { ongoingResp with
      board := [[0, 0, 0, 0, 0, 0, 0],
                [0, 0, 0, 0, 0, 0, 0],
                [0, 0, 0, 0, 0, 0, 0],
                [0, 0, 0, 0, 0, 0, 0],
                [0, 0, 0, 0, 0, 0, 0],
                [1, 1, 1, 1, 2, 2, 2]]
      current_player := 1
      game_over := true
      winner := some 1 }

/-- Modelled from the spec: the training engine's exploration-epsilon
schedule is not part of the provided sources (only the frontend is).  The
spec gives the linear clamped schedule
`epsilon(t) = max(epsilon_end, epsilon_start − t/decay_steps·(epsilon_start−epsilon_end))`,
here over the rationals. -/
def epsilon (eps_start eps_end : ℚ) (decay_steps : Nat) (t : Nat) : ℚ :=
  max eps_end (eps_start - ((t : ℚ) / (decay_steps : ℚ)) * (eps_start - eps_end))

/-! ## Helper lemmas about the window scan -/

theorem windowHit_iff (b : Board) (w : Piece) (cells : List (Nat × Nat)) :
    windowHit b w cells = true ↔ ∀ rc ∈ cells, cellAt b rc.1 rc.2 = some w := by
  simp [windowHit, List.all_eq_true]

theorem allWindows_shape :
    ∀ cells ∈ allWindows, cells.length = 4 ∧ ∀ rc ∈ cells, rc.1 < 6 ∧ rc.2 < 7 := by
  decide

theorem mem_allWindows_cases (cells : List (Nat × Nat)) (hm : cells ∈ allWindows) :
    cells ∈ horizWindows ∨ cells ∈ vertWindows ∨ cells ∈ diagDownWindows ∨
      cells ∈ diagUpWindows := by
  unfold allWindows at hm
  rcases List.mem_append.mp hm with hm | hm
  · rcases List.mem_append.mp hm with hm | hm
    · rcases List.mem_append.mp hm with hm | hm
      · exact Or.inl hm
      · exact Or.inr (Or.inl hm)
    · exact Or.inr (Or.inr (Or.inl hm))
  · exact Or.inr (Or.inr (Or.inr hm))

theorem windows_sound (b : Board) (p : Piece) (cells : List (Nat × Nat))
    (hm : cells ∈ allWindows) (hh : windowHit b p cells = true) : fourInARow b p := by
  rw [windowHit_iff] at hh
  rcases mem_allWindows_cases cells hm with hm | hm | hm | hm
  · unfold horizWindows at hm
    rw [List.mem_flatMap] at hm
    obtain ⟨row, hrow, hm⟩ := hm
    rw [List.mem_map] at hm
    obtain ⟨col, hcol, rfl⟩ := hm
    rw [List.mem_range] at hrow
    rw [List.mem_range] at hcol
    refine Or.inl ⟨row, col, hrow, ?_, ?_, ?_, ?_, ?_⟩
    · simp only [COLS] at hcol ⊢; omega
    · exact hh (row, col) (by simp)
    · exact hh (row, col + 1) (by simp)
    · exact hh (row, col + 2) (by simp)
    · exact hh (row, col + 3) (by simp)
  · unfold vertWindows at hm
    rw [List.mem_flatMap] at hm
    obtain ⟨row, hrow, hm⟩ := hm
    rw [List.mem_map] at hm
    obtain ⟨col, hcol, rfl⟩ := hm
    rw [List.mem_range] at hrow
    rw [List.mem_range] at hcol
    refine Or.inr (Or.inl ⟨row, col, ?_, hcol, ?_, ?_, ?_, ?_⟩)
    · simp only [ROWS] at hrow ⊢; omega
    · exact hh (row, col) (by simp)
    · exact hh (row + 1, col) (by simp)
    · exact hh (row + 2, col) (by simp)
    · exact hh (row + 3, col) (by simp)
  · unfold diagDownWindows at hm
    rw [List.mem_flatMap] at hm
    obtain ⟨row, hrow, hm⟩ := hm
    rw [List.mem_map] at hm
    obtain ⟨col, hcol, rfl⟩ := hm
    rw [List.mem_range] at hrow
    rw [List.mem_range] at hcol
    refine Or.inr (Or.inr (Or.inl ⟨row, col, ?_, ?_, ?_, ?_, ?_, ?_⟩))
    · simp only [ROWS] at hrow ⊢; omega
    · simp only [COLS] at hcol ⊢; omega
    · exact hh (row, col) (by simp)
    · exact hh (row + 1, col + 1) (by simp)
    · exact hh (row + 2, col + 2) (by simp)
    · exact hh (row + 3, col + 3) (by simp)
  · unfold diagUpWindows at hm
    rw [List.mem_flatMap] at hm
    obtain ⟨i, hi, hm⟩ := hm
    rw [List.mem_map] at hm
    obtain ⟨col, hcol, rfl⟩ := hm
    rw [List.mem_range] at hi
    rw [List.mem_range] at hcol
    refine Or.inr (Or.inr (Or.inr ⟨i, col, ?_, ?_, ?_, ?_, ?_, ?_⟩))
    · simp only [ROWS] at hi ⊢; omega
    · simp only [COLS] at hcol ⊢; omega
    · exact hh (i + 3, col) (by simp)
    · exact hh (i + 2, col + 1) (by simp)
    · exact hh (i + 1, col + 2) (by simp)
    · exact hh (i, col + 3) (by simp)

theorem horiz_mem_allWindows (r c : Nat) (hr : r < ROWS) (hc : c + 3 < COLS) :
    [(r, c), (r, c + 1), (r, c + 2), (r, c + 3)] ∈ allWindows := by
  unfold allWindows
  refine List.mem_append_left _ (List.mem_append_left _ (List.mem_append_left _ ?_))
  unfold horizWindows
  rw [List.mem_flatMap]
  refine ⟨r, List.mem_range.mpr hr, List.mem_map.mpr ⟨c, List.mem_range.mpr ?_, rfl⟩⟩
  simp only [COLS] at hc ⊢; omega

theorem vert_mem_allWindows (r c : Nat) (hr : r + 3 < ROWS) (hc : c < COLS) :
    [(r, c), (r + 1, c), (r + 2, c), (r + 3, c)] ∈ allWindows := by
  unfold allWindows
  refine List.mem_append_left _ (List.mem_append_left _ (List.mem_append_right _ ?_))
  unfold vertWindows
  rw [List.mem_flatMap]
  refine ⟨r, List.mem_range.mpr ?_, List.mem_map.mpr ⟨c, List.mem_range.mpr hc, rfl⟩⟩
  simp only [ROWS] at hr ⊢; omega

theorem diagDown_mem_allWindows (r c : Nat) (hr : r + 3 < ROWS) (hc : c + 3 < COLS) :
    [(r, c), (r + 1, c + 1), (r + 2, c + 2), (r + 3, c + 3)] ∈ allWindows := by
  unfold allWindows
  refine List.mem_append_left _ (List.mem_append_right _ ?_)
  unfold diagDownWindows
  rw [List.mem_flatMap]
  refine ⟨r, List.mem_range.mpr ?_, List.mem_map.mpr ⟨c, List.mem_range.mpr ?_, rfl⟩⟩
  · simp only [ROWS] at hr ⊢; omega
  · simp only [COLS] at hc ⊢; omega

theorem diagUp_mem_allWindows (r c : Nat) (hr : r + 3 < ROWS) (hc : c + 3 < COLS) :
    [(r + 3, c), (r + 2, c + 1), (r + 1, c + 2), (r, c + 3)] ∈ allWindows := by
  unfold allWindows
  refine List.mem_append_right _ ?_
  unfold diagUpWindows
  rw [List.mem_flatMap]
  refine ⟨r, List.mem_range.mpr ?_, List.mem_map.mpr ⟨c, List.mem_range.mpr ?_, rfl⟩⟩
  · simp only [ROWS] at hr ⊢; omega
  · simp only [COLS] at hc ⊢; omega

/-! ## Claim theorems about `findWinningCells` and `createEmptyBoard` -/

/-- Claim C1: for every 6×7 UI board `b` and winner piece `p` (either
`"player"` or `"ai"`), `findWinningCells b p` returns a non-empty result if
and only if `b` contains four consecutive cells equal to `p` in a
horizontal, vertical, or diagonal (either direction) line. -/
theorem findWinningCells_nonempty_iff (b : Board) (p : Piece)
    (hb : boardShape b) :
    findWinningCells b (some p) ≠ [] ↔ fourInARow b p := by
  show (allWindows.find? (windowHit b p)).getD [] ≠ [] ↔ fourInARow b p
  constructor
  · intro hne
    cases hf : allWindows.find? (windowHit b p) with
    | none => rw [hf] at hne; simp at hne
    | some cells =>
      exact windows_sound b p cells (List.mem_of_find?_eq_some hf)
        (List.find?_some hf)
  · intro h4
    have hex : ∃ W ∈ allWindows, windowHit b p W = true := by
      rcases h4 with ⟨r, c, h1, h2, e1, e2, e3, e4⟩ | ⟨r, c, h1, h2, e1, e2, e3, e4⟩ |
        ⟨r, c, h1, h2, e1, e2, e3, e4⟩ | ⟨r, c, h1, h2, e1, e2, e3, e4⟩
      · refine ⟨_, horiz_mem_allWindows r c h1 h2, ?_⟩
        rw [windowHit_iff]
        intro rc hrc
        rcases (by simpa using hrc : rc = (r, c) ∨ rc = (r, c + 1) ∨
          rc = (r, c + 2) ∨ rc = (r, c + 3)) with rfl | rfl | rfl | rfl
        · exact e1
        · exact e2
        · exact e3
        · exact e4
      · refine ⟨_, vert_mem_allWindows r c h1 h2, ?_⟩
        rw [windowHit_iff]
        intro rc hrc
        rcases (by simpa using hrc : rc = (r, c) ∨ rc = (r + 1, c) ∨
          rc = (r + 2, c) ∨ rc = (r + 3, c)) with rfl | rfl | rfl | rfl
        · exact e1
        · exact e2
        · exact e3
        · exact e4
      · refine ⟨_, diagDown_mem_allWindows r c h1 h2, ?_⟩
        rw [windowHit_iff]
        intro rc hrc
        rcases (by simpa using hrc : rc = (r, c) ∨ rc = (r + 1, c + 1) ∨
          rc = (r + 2, c + 2) ∨ rc = (r + 3, c + 3)) with rfl | rfl | rfl | rfl
        · exact e1
        · exact e2
        · exact e3
        · exact e4
      · refine ⟨_, diagUp_mem_allWindows r c h1 h2, ?_⟩
        rw [windowHit_iff]
        intro rc hrc
        rcases (by simpa using hrc : rc = (r + 3, c) ∨ rc = (r + 2, c + 1) ∨
          rc = (r + 1, c + 2) ∨ rc = (r, c + 3)) with rfl | rfl | rfl | rfl
        · exact e1
        · exact e2
        · exact e3
        · exact e4
    obtain ⟨W, hW, hhit⟩ := hex
    cases hf : allWindows.find? (windowHit b p) with
    | none => exact absurd hhit (by simpa using List.find?_eq_none.mp hf W hW)
    | some cells =>
      have hlen := (allWindows_shape cells (List.mem_of_find?_eq_some hf)).1
      have hcne : cells ≠ [] := by
        intro hnil
        rw [hnil] at hlen
        simp at hlen
      simpa [hf] using hcne

/-- Claim C1 witness: on a concrete 6×7 board with a horizontal player
four-in-a-row, the equivalence holds and both sides are realised. -/
theorem findWinningCells_nonempty_iff_witness :
    boardShape winBoard ∧
      (findWinningCells winBoard (some Piece.player) ≠ [] ↔
        fourInARow winBoard Piece.player) :=
  ⟨by decide, findWinningCells_nonempty_iff winBoard Piece.player (by decide)⟩

/-- Claim C7: `findWinningCells` returns `[]` or exactly four coordinates;
every returned coordinate is inside the 6×7 grid and holds the winner's
piece; and a `null` winner always yields `[]`. -/
theorem findWinningCells_result_shape (b : Board) (w : Piece) :
    findWinningCells b (none : Cell) = [] ∧
    (findWinningCells b (some w) = [] ∨
      ((findWinningCells b (some w)).length = 4 ∧
        ∀ rc ∈ findWinningCells b (some w),
          rc.1 < 6 ∧ rc.2 < 7 ∧ cellAt b rc.1 rc.2 = some w)) := by
  refine ⟨rfl, ?_⟩
  cases hf : allWindows.find? (windowHit b w) with
  | none =>
    left
    show (allWindows.find? (windowHit b w)).getD [] = []
    rw [hf]
    rfl
  | some cells =>
    right
    have hres : findWinningCells b (some w) = cells := by
      show (allWindows.find? (windowHit b w)).getD [] = cells
      rw [hf]
      rfl
    have hmem := List.mem_of_find?_eq_some hf
    have hhit := (windowHit_iff b w cells).mp (List.find?_some hf)
    have hshape := allWindows_shape cells hmem
    rw [hres]
    exact ⟨hshape.1, fun rc hrc =>
      ⟨(hshape.2 rc hrc).1, (hshape.2 rc hrc).2, hhit rc hrc⟩⟩

/-- Claim C7 witness: on the concrete winning board the result has length 4
and its first coordinate is in range and holds the player's piece. -/
theorem findWinningCells_result_shape_witness :
    findWinningCells winBoard (none : Cell) = [] ∧
      (findWinningCells winBoard (some Piece.player)).length = 4 ∧
      (0 : Nat) < 6 ∧ (0 : Nat) < 7 ∧
      cellAt winBoard 0 0 = some Piece.player := by
  have h := findWinningCells_result_shape winBoard Piece.player
  have h2 := h.2.resolve_left (by decide)
  exact ⟨h.1, h2.1, h2.2 (0, 0) (by decide)⟩

/-- Claim C6: `createEmptyBoard` has exactly 6 rows of 7 cells, all `null`,
and every UI cell value is one of `null`, `"player"`, `"ai"`. -/
theorem createEmptyBoard_spec :
    createEmptyBoard.length = 6 ∧
    (∀ row ∈ createEmptyBoard, row.length = 7 ∧ ∀ cell ∈ row, cell = none) ∧
    (∀ cell : Cell, cell = none ∨ cell = some Piece.player ∨
      cell = some Piece.ai) := by
  refine ⟨by decide, by decide, ?_⟩
  intro cell
  cases cell with
  | none => exact Or.inl rfl
  | some p =>
    cases p with
    | player => exact Or.inr (Or.inl rfl)
    | ai => exact Or.inr (Or.inr rfl)

/-- Claim C6 witness: the row count, the first row's shape, and the
three-valuedness at the `"player"` cell value. -/
theorem createEmptyBoard_spec_witness :
    createEmptyBoard.length = 6 ∧
      (createEmptyBoard.getD 0 []).length = 7 ∧
      (some Piece.player = (none : Cell) ∨
        some Piece.player = some Piece.player ∨
        some Piece.player = some Piece.ai) :=
  ⟨createEmptyBoard_spec.1,
   (createEmptyBoard_spec.2.1 (createEmptyBoard.getD 0 []) (by decide)).1,
   createEmptyBoard_spec.2.2 (some Piece.player)⟩

/-! ## Helper lemmas about `makeMove` -/

theorem occupied_top_get (l : List Cell) (col : Nat)
    (h : l.getD col none ≠ none) : l.get? col ≠ some (none : Cell) := by
  intro hc
  apply h
  rw [List.getD_eq_getElem?_getD, ← List.get?_eq_getElem?, hc]
  rfl

theorem makeMove_blocked (s : HookState) (col : Nat) (o : MoveOutcome)
    (h : (s.board.getD 0 []).get? col ≠ some (none : Cell)) :
    makeMove s col o = (s, false) := by
  unfold makeMove
  by_cases hg : s.status ≠ GameStatus.playing ∨ s.currentTurn ≠ Piece.player ∨
      s.isThinking = true
  · rw [if_pos hg]
  · rw [if_neg hg]
    by_cases hs : s.sessionId = none
    · rw [if_pos hs]
    · rw [if_neg hs, if_pos h]

theorem makeMove_passes (s : HookState) (col : Nat) (o : MoveOutcome)
    (h1 : s.status = GameStatus.playing) (h2 : s.currentTurn = Piece.player)
    (h3 : s.isThinking = false) (h4 : s.sessionId ≠ none)
    (h5 : (s.board.getD 0 []).get? col = some (none : Cell)) :
    makeMove s col o =
      (match o with
       | MoveOutcome.httpError msg =>
         ({ s with errorMessage := some msg, isThinking := false }, true)
       | MoveOutcome.ok data => (processMoveResponse s data, true)) := by
  unfold makeMove
  rw [if_neg (by simp [h1, h2, h3]), if_neg h4, if_neg fun hne => hne h5]

/-! ## Claim theorems about `makeMove` -/

/-- Claim C2: a move request is issued only when the top cell of the column
is free; when `board[0][col]` is occupied, `makeMove` returns with no
request and no state change, and the column's drop button is disabled. -/
theorem makeMove_requires_free_top (s : HookState) (col : Nat)
    (o : MoveOutcome) (d : Bool) :
    ((makeMove s col o).2 = true →
      (s.board.getD 0 []).get? col = some (none : Cell)) ∧
    ((s.board.getD 0 []).getD col none ≠ none →
      makeMove s col o = (s, false) ∧
        dropButtonDisabled d s.board col = true) := by
  constructor
  · intro hreq
    by_contra hne
    rw [makeMove_blocked s col o hne] at hreq
    simp at hreq
  · intro hocc
    have hne := occupied_top_get _ col hocc
    refine ⟨makeMove_blocked s col o hne, ?_⟩
    simp only [dropButtonDisabled, Bool.or_eq_true, decide_eq_true_eq]
    exact Or.inr hne

/-- Claim C2 witness: with the top-left cell occupied, `makeMove 0` is a
no-op and the drop button for column 0 is disabled. -/
theorem makeMove_requires_free_top_witness :
    makeMove occupiedState 0 (MoveOutcome.httpError errMsg) =
        (occupiedState, false) ∧
      dropButtonDisabled false occupiedState.board 0 = true :=
  (makeMove_requires_free_top occupiedState 0
    (MoveOutcome.httpError errMsg) false).2 (by decide)

/-- Claim C4: when the status is terminal (`won`, `lost`, or `draw`), or it
is not the human's turn, or a request is in flight, `makeMove` sends no
request and leaves the whole state unchanged. -/
theorem makeMove_terminal_noop (s : HookState) (col : Nat) (o : MoveOutcome)
    (h : (s.status = GameStatus.won ∨ s.status = GameStatus.lost ∨
          s.status = GameStatus.draw) ∨
         s.currentTurn ≠ Piece.player ∨ s.isThinking = true) :
    makeMove s col o = (s, false) := by
  have hcond : s.status ≠ GameStatus.playing ∨ s.currentTurn ≠ Piece.player ∨
      s.isThinking = true := by
    rcases h with (h | h | h) | h | h
    · exact Or.inl (by rw [h]; decide)
    · exact Or.inl (by rw [h]; decide)
    · exact Or.inl (by rw [h]; decide)
    · exact Or.inr (Or.inl h)
    · exact Or.inr (Or.inr h)
  unfold makeMove
  rw [if_pos hcond]

/-- Claim C4 witness: in a state already won, `makeMove` is a no-op. -/
theorem makeMove_terminal_noop_witness :
    makeMove wonState 0 (MoveOutcome.httpError errMsg) = (wonState, false) :=
  makeMove_terminal_noop wonState 0 (MoveOutcome.httpError errMsg)
    (Or.inl (Or.inl (by decide)))

/-- Claim C5: when the move request fails, the board, status, turn, and
winning cells keep their previous values, the error message is set to a
non-null string, and `isThinking` ends false. -/
theorem makeMove_error_preserves_state (s : HookState) (col : Nat)
    (msg : String)
    (h1 : s.status = GameStatus.playing) (h2 : s.currentTurn = Piece.player)
    (h3 : s.isThinking = false) (h4 : s.sessionId ≠ none)
    (h5 : (s.board.getD 0 []).get? col = some (none : Cell)) :
    (makeMove s col (MoveOutcome.httpError msg)).2 = true ∧
    (makeMove s col (MoveOutcome.httpError msg)).1.board = s.board ∧
    (makeMove s col (MoveOutcome.httpError msg)).1.status = s.status ∧
    (makeMove s col (MoveOutcome.httpError msg)).1.currentTurn =
      s.currentTurn ∧
    (makeMove s col (MoveOutcome.httpError msg)).1.winningCells =
      s.winningCells ∧
    (makeMove s col (MoveOutcome.httpError msg)).1.errorMessage = some msg ∧
    (makeMove s col (MoveOutcome.httpError msg)).1.errorMessage ≠ none ∧
    (makeMove s col (MoveOutcome.httpError msg)).1.isThinking = false := by
  have hrun := makeMove_passes s col (MoveOutcome.httpError msg) h1 h2 h3 h4 h5
  rw [hrun]
  simp

/-- Claim C5 witness: a failing request from the ready state keeps the board
and sets the error message. -/
theorem makeMove_error_preserves_state_witness :
    (makeMove readyState 0 (MoveOutcome.httpError errMsg)).1.board =
        readyState.board ∧
      (makeMove readyState 0 (MoveOutcome.httpError errMsg)).1.errorMessage =
        some errMsg ∧
      (makeMove readyState 0 (MoveOutcome.httpError errMsg)).1.isThinking =
        false := by
  have h := makeMove_error_preserves_state readyState 0 errMsg rfl rfl rfl
    (by decide) (by decide)
  exact ⟨h.2.1, h.2.2.2.2.2.1, h.2.2.2.2.2.2.2⟩

/-- Claim C3 (amended): after a successful move response, if
`game_over = true` the status becomes exactly one of `draw` (winner 3),
`won` (winner equals the human player number), or `lost` (otherwise); if
`game_over = false` the status stays `playing`, the board is replaced by
the converted response board, the turn owner is updated from
`current_player`, and the winning cells and error message are unchanged. -/
theorem makeMove_response_status (s : HookState) (col : Nat)
    (resp : GameStateResponse)
    (h1 : s.status = GameStatus.playing) (h2 : s.currentTurn = Piece.player)
    (h3 : s.isThinking = false) (h4 : s.sessionId ≠ none)
    (h5 : (s.board.getD 0 []).get? col = some (none : Cell)) :
    (makeMove s col (MoveOutcome.ok resp)).2 = true ∧
    (resp.game_over = true →
      ((makeMove s col (MoveOutcome.ok resp)).1.status = GameStatus.draw ∨
       (makeMove s col (MoveOutcome.ok resp)).1.status = GameStatus.won ∨
       (makeMove s col (MoveOutcome.ok resp)).1.status = GameStatus.lost) ∧
      (resp.winner = some 3 →
        (makeMove s col (MoveOutcome.ok resp)).1.status = GameStatus.draw) ∧
      (resp.winner ≠ some 3 → resp.winner = some resp.human_player →
        (makeMove s col (MoveOutcome.ok resp)).1.status = GameStatus.won) ∧
      (resp.winner ≠ some 3 → resp.winner ≠ some resp.human_player →
        (makeMove s col (MoveOutcome.ok resp)).1.status = GameStatus.lost)) ∧
    (resp.game_over = false →
      (makeMove s col (MoveOutcome.ok resp)).1.status = GameStatus.playing ∧
      (makeMove s col (MoveOutcome.ok resp)).1.board =
        convertBoard resp.board resp.human_player ∧
      (makeMove s col (MoveOutcome.ok resp)).1.currentTurn =
        (if resp.current_player = resp.human_player then Piece.player
         else Piece.ai) ∧
      (makeMove s col (MoveOutcome.ok resp)).1.winningCells =
        s.winningCells ∧
      (makeMove s col (MoveOutcome.ok resp)).1.errorMessage =
        s.errorMessage ∧
      (makeMove s col (MoveOutcome.ok resp)).1.isThinking = false) := by
  have hrun := makeMove_passes s col (MoveOutcome.ok resp) h1 h2 h3 h4 h5
  refine ⟨by rw [hrun], ?_, ?_⟩
  · intro hgo
    by_cases hw3 : resp.winner = some 3
    · have hst : (makeMove s col (MoveOutcome.ok resp)).1.status =
          GameStatus.draw := by
        rw [hrun]
        simp [processMoveResponse, hgo, hw3]
      exact ⟨Or.inl hst, fun _ => hst, fun hn _ => absurd hw3 hn,
        fun hn _ => absurd hw3 hn⟩
    · by_cases hwh : resp.winner = some resp.human_player
      · have hh3 : resp.human_player ≠ 3 := fun hc => hw3 (by rw [hwh, hc])
        have hst : (makeMove s col (MoveOutcome.ok resp)).1.status =
            GameStatus.won := by
          rw [hrun]
          simp [processMoveResponse, hgo, hw3, hwh, hh3]
        exact ⟨Or.inr (Or.inl hst), fun hc => absurd hc hw3,
          fun _ _ => hst, fun _ hn => absurd hwh hn⟩
      · have hst : (makeMove s col (MoveOutcome.ok resp)).1.status =
            GameStatus.lost := by
          rw [hrun]
          simp [processMoveResponse, hgo, hw3, hwh]
        exact ⟨Or.inr (Or.inr hst), fun hc => absurd hc hw3,
          fun _ hc => absurd hc hwh, fun _ _ => hst⟩
  · intro hgo
    rw [hrun]
    simp [processMoveResponse, hgo, h1]

/-- Claim C3 counterexample: for a successful response with
`game_over = false` the turn owner is not the only thing updated — the
board changes as well, so the claim as stated fails at this input. -/
theorem makeMove_response_status_counterexample :
    (makeMove readyState 0 (MoveOutcome.ok ongoingResp)).2 = true ∧
    ongoingResp.game_over = false ∧
    (makeMove readyState 0 (MoveOutcome.ok ongoingResp)).1.status =
      GameStatus.playing ∧
    (makeMove readyState 0 (MoveOutcome.ok ongoingResp)).1.board ≠
      readyState.board := by
  decide

/-- Claim C3 witness: a winning response from the ready state yields status
`won`, and an ongoing response keeps status `playing` while updating the
board and the turn. -/
theorem makeMove_response_status_witness :
    (makeMove readyState 0 (MoveOutcome.ok wonResp)).2 = true ∧
      (makeMove readyState 0 (MoveOutcome.ok wonResp)).1.status =
        GameStatus.won ∧
      (makeMove readyState 0 (MoveOutcome.ok ongoingResp)).1.status =
        GameStatus.playing := by
  have hw := makeMove_response_status readyState 0 wonResp rfl rfl rfl
    (by decide) (by decide)
  have ho := makeMove_response_status readyState 0 ongoingResp rfl rfl rfl
    (by decide) (by decide)
  exact ⟨hw.1, (hw.2.1 rfl).2.2.1 (by decide) (by decide), (ho.2.2 rfl).1⟩

/-! ## Claims about `convertBoard`, `resetGame`, and the epsilon schedule -/

theorem convertBoard_row_length (a : List (List Nat)) (hp r : Nat) :
    ((convertBoard a hp).getD r []).length = (a.getD r []).length := by
  simp only [List.getD_eq_getElem?_getD]
  unfold convertBoard
  rw [List.getElem?_map]
  cases a[r]? with
  | none => rfl
  | some row => simp

theorem convertBoard_cell (a : List (List Nat)) (hp r c : Nat) :
    ((convertBoard a hp).getD r []).getD c none =
      convertCell hp ((a.getD r []).getD c 0) := by
  simp only [List.getD_eq_getElem?_getD]
  unfold convertBoard
  rw [List.getElem?_map]
  cases a[r]? with
  | none => simp [convertCell]
  | some row =>
    simp only [Option.map_some', Option.getD_some]
    rw [List.getElem?_map]
    cases row[c]? with
    | none => simp [convertCell]
    | some cell => simp

/-- Claim C8: `convertBoard` preserves the row and column shape of the API
board and maps each cell pointwise: `0` to `null`, the human player's
number to `"player"`, and any other value to `"ai"`. -/
theorem convertBoard_pointwise (a : List (List Nat)) (hp : Nat) :
    (convertBoard a hp).length = a.length ∧
    (∀ r, ((convertBoard a hp).getD r []).length = (a.getD r []).length) ∧
    (∀ r c, ((convertBoard a hp).getD r []).getD c none =
      (if (a.getD r []).getD c 0 = 0 then none
       else if (a.getD r []).getD c 0 = hp then some Piece.player
       else some Piece.ai)) := by
  refine ⟨by simp [convertBoard], fun r => convertBoard_row_length a hp r,
    fun r c => ?_⟩
  rw [convertBoard_cell]
  rfl

/-- Claim C9: `resetGame` invokes `initGame`, and the state set before the
init request is issued has the empty 6×7 board, no winning cells, a cleared
error message, and `aiFirst` reset to false. -/
theorem resetGame_restarts_empty (s : HookState) :
    (∀ o, resetGame s o = initGame s o) ∧
    (initGamePre s).board = createEmptyBoard ∧
    (initGamePre s).board.length = 6 ∧
    (∀ row ∈ (initGamePre s).board, row.length = 7 ∧
      ∀ cell ∈ row, cell = none) ∧
    (initGamePre s).winningCells = [] ∧
    (initGamePre s).errorMessage = none ∧
    (initGamePre s).aiFirst = false := by
  refine ⟨fun o => rfl, rfl, ?_, ?_, rfl, rfl, rfl⟩
  · show createEmptyBoard.length = 6
    decide
  · show ∀ row ∈ createEmptyBoard, row.length = 7 ∧ ∀ cell ∈ row, cell = none
    decide

/-- Claim C9 witness: resetting from the won state yields the initGame
transition and the pre-request fields are reset. -/
theorem resetGame_restarts_empty_witness :
    resetGame wonState (InitOutcome.httpError errMsg) =
        initGame wonState (InitOutcome.httpError errMsg) ∧
      (initGamePre wonState).board = createEmptyBoard ∧
      (initGamePre wonState).errorMessage = none ∧
      (initGamePre wonState).aiFirst = false := by
  have h := resetGame_restarts_empty wonState
  exact ⟨h.1 (InitOutcome.httpError errMsg), h.2.1, h.2.2.2.2.2.1,
    h.2.2.2.2.2.2⟩

/-- Claim C10: the exploration epsilon schedule is linear and clamped:
`epsilon t = max eps_end (eps_start − (t/decay)·(eps_start − eps_end))`,
with `epsilon 0 = eps_start`, `epsilon decay = eps_end`, and `epsilon`
non-increasing in `t` (for a decaying schedule `eps_end ≤ eps_start` with a
positive number of decay steps). -/
theorem epsilon_schedule (es ee : ℚ) (d : Nat) (hle : ee ≤ es)
    (hd : 0 < d) :
    (∀ t : Nat, epsilon es ee d t =
      max ee (es - ((t : ℚ) / (d : ℚ)) * (es - ee))) ∧
    epsilon es ee d 0 = es ∧
    epsilon es ee d d = ee ∧
    (∀ t u : Nat, t ≤ u → epsilon es ee d u ≤ epsilon es ee d t) := by
  have hdq : (0 : ℚ) < (d : ℚ) := by exact_mod_cast hd
  refine ⟨fun t => rfl, ?_, ?_, ?_⟩
  · unfold epsilon
    rw [Nat.cast_zero, zero_div, zero_mul, sub_zero, max_eq_right hle]
  · unfold epsilon
    rw [div_self (ne_of_gt hdq), one_mul, sub_sub_cancel, max_self]
  · intro t u htu
    unfold epsilon
    refine max_le_max le_rfl (sub_le_sub_left ?_ es)
    refine mul_le_mul_of_nonneg_right ?_ (sub_nonneg.mpr hle)
    refine div_le_div_of_nonneg_right ?_ (le_of_lt hdq)
    exact_mod_cast htu

/-- Claim C10 witness: the schedule at `eps_start = 1`, `eps_end = 0`,
`decay_steps = 4` starts at 1, ends at 0, and decreases from step 1 to
step 3. -/
theorem epsilon_schedule_witness :
    (0 : ℚ) ≤ 1 ∧ (0 : Nat) < 4 ∧
      epsilon 1 0 4 0 = 1 ∧ epsilon 1 0 4 4 = 0 ∧
      epsilon 1 0 4 3 ≤ epsilon 1 0 4 1 := by
  have h := epsilon_schedule 1 0 4 (by decide) (by decide)
  exact ⟨by decide, by decide, h.2.1, h.2.2.1, h.2.2.2 1 3 (by decide)⟩
